import Mathlib

/-!
# Verification of the Temporal Completeness & Calendar Normalization Engine

Shallow embedding of `dashboard_ogd.py` (traffic dashboard for the
Rosengartenstrasse, Zürich).  Timestamps are modelled as natural numbers
counting whole hours since the Unix epoch (1970-01-01 00:00); the input
data is hour-aligned, so this carries exactly the information the engine
uses.  A dataset is the list of (distinct or repeated) timestamps carried
by the rows of the `Datum` column.
-/

/-- Civil date (year, month, day) of a day number counted from 1970-01-01
(Gregorian calendar, via the standard era/day-of-era decomposition); models
what pandas exposes as `dt.year` / `dt.month` / `dt.day`. -/
def civilFromDays (z : Nat) : Nat × Nat × Nat :=
  let z' := z + 719468
  let era := z' / 146097
  let doe := z' % 146097
  let yoe := (doe - doe / 1460 + doe / 36524 - doe / 146096) / 365
  let y := yoe + era * 400
  let doy := doe - (365 * yoe + yoe / 4 - yoe / 100)
  let mp := (5 * doy + 2) / 153
  let d := doy - (153 * mp + 2) / 5 + 1
  let m := if mp < 10 then mp + 3 else mp - 9
  (if m ≤ 2 then y + 1 else y, m, d)

/-- `data['Jahr'] = data['Datum'].dt.year` for an hour-count timestamp. -/
def Jahr (t : Nat) : Nat := (civilFromDays (t / 24)).1

/-- `data['Monat'] = data['Datum'].dt.month` for an hour-count timestamp. -/
def Monat (t : Nat) : Nat := (civilFromDays (t / 24)).2.1

/-- `data['Stunde'] = data['Datum'].dt.hour` for an hour-count timestamp. -/
def Stunde (t : Nat) : Nat := t % 24

/-- Gregorian leap-year test. -/
def isLeapYear (y : Nat) : Bool := (y % 4 == 0 && y % 100 != 0) || y % 400 == 0

/-- Days in the year strictly before month `m` (1..12). -/
def monthOffset (leap : Bool) (m : Nat) : Nat :=
  match m with
  | 1 => 0
  | 2 => 31
  | 3 => 59 + (if leap then 1 else 0)
  | 4 => 90 + (if leap then 1 else 0)
  | 5 => 120 + (if leap then 1 else 0)
  | 6 => 151 + (if leap then 1 else 0)
  | 7 => 181 + (if leap then 1 else 0)
  | 8 => 212 + (if leap then 1 else 0)
  | 9 => 243 + (if leap then 1 else 0)
  | 10 => 273 + (if leap then 1 else 0)
  | 11 => 304 + (if leap then 1 else 0)
  | _ => 334 + (if leap then 1 else 0)

/-- Ordinal day of the year (1..366) of a day number. -/
def dayOfYear (z : Nat) : Nat :=
  let c := civilFromDays z
  monthOffset (isLeapYear c.1) c.2.1 + c.2.2

/-- ISO weekday (1 = Monday .. 7 = Sunday) of a day number; 1970-01-01 was a
Thursday. -/
def isoWeekday (z : Nat) : Nat := (z + 3) % 7 + 1

/-- Weekday anchor used by the ISO long-year rule. -/
def isoAnchor (y : Nat) : Nat := (y + y / 4 - y / 100 + y / 400) % 7

/-- A year has 53 ISO weeks iff it starts on Thursday or is a leap year
starting on Wednesday (standard formulation via the anchor weekday). -/
def isoLongYear (y : Nat) : Bool := isoAnchor y == 4 || isoAnchor (y - 1) == 3

/-- ISO calendar-week number of a day number; models
`data['Kalenderwoche'] = data['Datum'].dt.isocalendar().week`. -/
def Kalenderwoche (t : Nat) : Nat :=
  let z := t / 24
  let y := (civilFromDays z).1
  let w := (dayOfYear z + 10 - isoWeekday z) / 7
  if w = 0 then (if isoLongYear (y - 1) then 53 else 52)
  else if w = 53 && !isoLongYear y then 1
  else w

/-- `pd.date_range(start=a, end=b, freq='h')` on hour-aligned endpoints:
the hourly sequence `[a, a+1, ..., b]` (empty when `b < a`). -/
def hourRange (a b : Nat) : List Nat := List.range' a (b + 1 - a)

/-- `data['Datum'].min()` (0 on the empty list, which the engine never sees). -/
def listMin : List Nat → Nat
  | [] => 0
  | x :: xs => xs.foldl min x

/-- `data['Datum'].max()` (0 on the empty list, which the engine never sees). -/
def listMax : List Nat → Nat
  | [] => 0
  | x :: xs => xs.foldl max x

/-- `fehlend = sorted(set(full_range) - vorhanden)`: the missing expected
timestamps, in ascending order.  Filtering the ascending `full_range`
produces exactly the sorted set difference. -/
def fehlend (l : List Nat) : List Nat :=
  (hourRange (listMin l) (listMax l)).filter (fun t => decide (t ∉ l))

/-- One record of the `gaps` list built by `analyze_data_gaps`
(the Python dict `{'start', 'end', 'duration_h', 'is_dst'}`;
`end` is spelled `stop` because it is a Lean keyword). -/
structure Gap where
  start : Nat
  stop : Nat
  duration_h : Nat
  is_dst : Bool
deriving DecidableEq, Repr

/-- Closing a run `[gs, ge]` of missing hours into a Gap record:
`duration_h = (gap_end - gap_start).total_seconds()/3600 + 1` and
`is_dst = gap_start.month == 3 and gap_start.hour == 2 and duration_h <= 1`. -/
def mkGap (gs ge : Nat) : Gap :=
  { start := gs
    stop := ge
    duration_h := ge - gs + 1
    is_dst := decide (Monat gs = 3 ∧ Stunde gs = 2 ∧ ge - gs + 1 ≤ 1) }

/-- The scan of `analyze_data_gaps` over `fehlend[1:]`, carrying the current
run `[gs, ge]`: a next missing timestamp `ts` with `ts - gap_end <= 1` hour
extends the run, otherwise the run is closed and a new one starts at `ts`;
the final run is closed after the loop. -/
def buildGaps : List Nat → Nat → Nat → List Gap
  | [], gs, ge => [mkGap gs ge]
  | ts :: rest, gs, ge =>
    if ts - ge ≤ 1 then buildGaps rest gs ts
    else mkGap gs ge :: buildGaps rest ts ts

/-- The `gaps` list of `analyze_data_gaps`: empty when nothing is missing,
otherwise the scan started at the first missing timestamp. -/
def gaps (l : List Nat) : List Gap :=
  match fehlend l with
  | [] => []
  | f :: fs => buildGaps fs f f

/-- The hourly timestamps a Gap covers. -/
def gapHours (g : Gap) : List Nat := hourRange g.start g.stop

/-- `sorted(data['Jahr'].unique())` — insertion sort models Python `sorted`. -/
def insertSorted (x : Nat) : List Nat → List Nat
  | [] => [x]
  | y :: ys => if x ≤ y then x :: y :: ys else y :: insertSorted x ys

/-- Ascending sort of a list of naturals (Python `sorted`). -/
def sortNat (l : List Nat) : List Nat := l.foldr insertSorted []

/-- The distinct years present in the data, ascending. -/
def years (l : List Nat) : List Nat := sortNat ((l.map Jahr).dedup)

/-- One record of `yearly_stats` (the Python dict
`{'jahr','start','end','expected','actual','missing','completeness',
'gap_hours','gap_days'}`). -/
structure YearStat where
  jahr : Nat
  start : Nat
  stop : Nat
  expected : Nat
  actual : Nat
  missing : Int
  completeness : ℚ
  gap_hours : Nat
  gap_days : ℚ
deriving DecidableEq, Repr

/-- The per-year body of the loop in `analyze_data_gaps`: restrict to the
year's rows, count expected hourly slots between the year's first and last
observation, count distinct observed timestamps, and total the durations of
the real (multi-hour, non-DST) gaps starting in that year. -/
def yearStat (l : List Nat) (gs : List Gap) (j : Nat) : YearStat :=
  let jd := l.filter (fun t => decide (Jahr t = j))
  let s := listMin jd
  let e := listMax jd
  let expected := e + 1 - s
  let actual := jd.dedup.length
  let gh := ((gs.filter (fun g =>
      decide (Jahr g.start = j ∧ 1 < g.duration_h ∧ g.is_dst = false))).map
      (fun g => g.duration_h)).sum
  { jahr := j
    start := s
    stop := e
    expected := expected
    actual := actual
    missing := (expected : Int) - (actual : Int)
    completeness := if 0 < expected then 100 * (actual : ℚ) / (expected : ℚ) else 0
    gap_hours := gh
    gap_days := (gh : ℚ) / 24 }

/-- The result of `analyze_data_gaps`. -/
structure GapAnalysis where
  gaps : List Gap
  yearly_stats : List YearStat
  total_missing : Nat
deriving DecidableEq, Repr

/-- `analyze_data_gaps(data)` on the list of timestamps of the dataset's rows. -/
def analyze_data_gaps (l : List Nat) : GapAnalysis :=
  { gaps := gaps l
    yearly_stats := (years l).map (yearStat l (gaps l))
    total_missing := (fehlend l).length }

/-- One row of `daily_totals_weekly = filtered.groupby(['Jahr',
'Kalenderwoche','Datum_Tag'])['Anzahl'].sum()`: a per-day total keyed by
calendar year, ISO week and day.  `jahr` is an integer, as in pandas. -/
structure DayRec where
  jahr : Int
  kw : Nat
  tag : Nat
  anzahl : Int
deriving DecidableEq, Repr

/-- The reassignment applied to a week-53 row:
`kw53_data['Jahr'] += 1; kw53_data['Kalenderwoche'] = 1`. -/
def foldRow (r : DayRec) : DayRec := { r with jahr := r.jahr + 1, kw := 1 }

/-- The calendar-week folding in `main`: copy the week-53 rows with year+1 and
week 1, append them, then keep only rows with `Kalenderwoche <= 52`.
(The Python guards the concat by non-emptiness of the week-53 slice, which is
equivalent to always appending the possibly empty slice.) -/
def foldKW53 (rows : List DayRec) : List DayRec :=
  (rows ++ (rows.filter (fun r => decide (r.kw = 53))).map foldRow).filter
    (fun r => decide (r.kw ≤ 52))

/-- The rows of a (year, week) group. -/
def kwGroup (rows : List DayRec) (j : Int) (w : Nat) : List DayRec :=
  rows.filter (fun r => decide (r.jahr = j ∧ r.kw = w))

/-- The summed day-total of a (year, week) group. -/
def kwGroupSum (rows : List DayRec) (j : Int) (w : Nat) : Int :=
  ((kwGroup rows j w).map (fun r => r.anzahl)).sum

/-- One row of `weekly_stats_kw`: year, calendar week, mean daily total
(`None` models the `NaN` written by the suppression rules) and the number of
distinct contributing days. -/
structure WeekStat where
  jahr : Int
  kw : Nat
  anzahl : Option ℚ
  tage : Nat
deriving DecidableEq, Repr

/-- The aggregation `groupby(['Jahr','Kalenderwoche']).agg(Anzahl=('Anzahl',
'mean'), Tage=('Datum_Tag','nunique'))` for one key. -/
def wkStat (rows : List DayRec) (k : Int × Nat) : WeekStat :=
  let grp := rows.filter (fun r => decide (r.jahr = k.1 ∧ r.kw = k.2))
  { jahr := k.1
    kw := k.2
    anzahl := some (((grp.map (fun r => r.anzahl)).sum : ℚ) / (grp.length : ℚ))
    tage := (grp.map (fun r => r.tag)).dedup.length }

/-- `weekly_stats_kw.loc[weekly_stats_kw['Tage'] < 5, 'Anzahl'] = np.nan`. -/
def suppressTage (s : WeekStat) : WeekStat :=
  if s.tage < 5 then { s with anzahl := none } else s

/-- `weekly_stats_kw.loc[(Jahr == 2020) & (Kalenderwoche < 4), 'Anzahl'] =
np.nan`. -/
def suppressLockdown (s : WeekStat) : WeekStat :=
  if s.jahr = 2020 ∧ s.kw < 4 then { s with anzahl := none } else s

/-- The keys of the weekly groupby (distinct (Jahr, Kalenderwoche) pairs). -/
def wkKeys (rows : List DayRec) : List (Int × Nat) :=
  (rows.map (fun r => (r.jahr, r.kw))).dedup

/-- `weekly_stats_kw` after both suppression rules, one record per
(year, week) key present in the folded rows. -/
def weekly_stats_kw (rows : List DayRec) : List WeekStat :=
  (wkKeys rows).map (fun k => suppressLockdown (suppressTage (wkStat rows k)))

/-! ## Helper lemmas -/

theorem mem_hourRange {a b t : Nat} : t ∈ hourRange a b ↔ a ≤ t ∧ t ≤ b := by
  unfold hourRange
  rw [List.mem_range']
  constructor
  · rintro ⟨i, hi, rfl⟩
    omega
  · rintro ⟨h1, h2⟩
    exact ⟨t - a, by omega, by omega⟩

theorem hourRange_self (a : Nat) : hourRange a a = [a] := by
  unfold hourRange
  have h : a + 1 - a = 1 := by omega
  rw [h, List.range'_one]

theorem hourRange_snoc {a b : Nat} (h : a ≤ b + 1) :
    hourRange a (b + 1) = hourRange a b ++ [b + 1] := by
  unfold hourRange
  have h1 : b + 1 + 1 - a = (b + 1 - a) + 1 := by omega
  rw [h1, List.range'_concat]
  have h2 : a + 1 * (b + 1 - a) = b + 1 := by omega
  rw [h2]

theorem pairwise_hourRange (a b : Nat) : (hourRange a b).Pairwise (· < ·) :=
  List.pairwise_lt_range' _ _

theorem fehlend_pairwise (l : List Nat) : (fehlend l).Pairwise (· < ·) :=
  List.Pairwise.sublist (List.filter_sublist _) (pairwise_hourRange _ _)

theorem fehlend_nodup (l : List Nat) : (fehlend l).Nodup :=
  (fehlend_pairwise l).imp Nat.ne_of_lt

theorem mem_fehlend {l : List Nat} {t : Nat} :
    t ∈ fehlend l ↔ (t ∈ hourRange (listMin l) (listMax l) ∧ t ∉ l) := by
  unfold fehlend
  rw [List.mem_filter]
  simp

theorem foldl_min_le_init : ∀ (l : List Nat) (a : Nat), l.foldl min a ≤ a := by
  intro l
  induction l with
  | nil => intro a; exact le_rfl
  | cons y ys ih =>
    intro a
    calc (y :: ys).foldl min a = ys.foldl min (min a y) := rfl
    _ ≤ min a y := ih _
    _ ≤ a := min_le_left _ _

theorem foldl_min_le_mem : ∀ (l : List Nat) (a x : Nat), x ∈ l → l.foldl min a ≤ x := by
  intro l
  induction l with
  | nil => intro a x hx; cases hx
  | cons y ys ih =>
    intro a x hx
    rcases List.mem_cons.mp hx with rfl | hx
    · calc (x :: ys).foldl min a = ys.foldl min (min a x) := rfl
      _ ≤ min a x := foldl_min_le_init _ _
      _ ≤ x := min_le_right _ _
    · exact ih (min a y) x hx

theorem le_foldl_max_init : ∀ (l : List Nat) (a : Nat), a ≤ l.foldl max a := by
  intro l
  induction l with
  | nil => intro a; exact le_rfl
  | cons y ys ih =>
    intro a
    calc a ≤ max a y := le_max_left _ _
    _ ≤ ys.foldl max (max a y) := ih _
    _ = (y :: ys).foldl max a := rfl

theorem le_foldl_max_mem : ∀ (l : List Nat) (a x : Nat), x ∈ l → x ≤ l.foldl max a := by
  intro l
  induction l with
  | nil => intro a x hx; cases hx
  | cons y ys ih =>
    intro a x hx
    rcases List.mem_cons.mp hx with rfl | hx
    · calc x ≤ max a x := le_max_right _ _
      _ ≤ ys.foldl max (max a x) := le_foldl_max_init _ _
    · exact ih (max a y) x hx

theorem listMin_le {l : List Nat} {x : Nat} (h : x ∈ l) : listMin l ≤ x := by
  cases l with
  | nil => cases h
  | cons y ys =>
    rcases List.mem_cons.mp h with rfl | h
    · exact foldl_min_le_init ys x
    · exact foldl_min_le_mem ys y x h

theorem le_listMax {l : List Nat} {x : Nat} (h : x ∈ l) : x ≤ listMax l := by
  cases l with
  | nil => cases h
  | cons y ys =>
    rcases List.mem_cons.mp h with rfl | h
    · exact le_foldl_max_init ys x
    · exact le_foldl_max_mem ys y x h

theorem mem_insertSorted {x y : Nat} : ∀ {l : List Nat},
    y ∈ insertSorted x l ↔ y = x ∨ y ∈ l := by
  intro l
  induction l with
  | nil => simp [insertSorted]
  | cons z zs ih =>
    unfold insertSorted
    by_cases h : x ≤ z
    · rw [if_pos h]
      simp
    · rw [if_neg h]
      simp only [List.mem_cons, ih]
      tauto

theorem mem_sortNat {x : Nat} : ∀ {l : List Nat}, x ∈ sortNat l ↔ x ∈ l := by
  intro l
  induction l with
  | nil => simp [sortNat]
  | cons y ys ih =>
    show x ∈ insertSorted y (sortNat ys) ↔ _
    rw [mem_insertSorted, ih]
    simp

theorem mem_years {l : List Nat} {j : Nat} : j ∈ years l ↔ ∃ t ∈ l, Jahr t = j := by
  unfold years
  rw [mem_sortNat, List.mem_dedup, List.mem_map]

theorem buildGaps_flatten : ∀ (l : List Nat) (gs ge : Nat), gs ≤ ge →
    List.Chain (· < ·) ge l →
    ((buildGaps l gs ge).map gapHours).flatten = hourRange gs ge ++ l := by
  intro l
  induction l with
  | nil =>
    intro gs ge _ _
    simp [buildGaps, gapHours, mkGap]
  | cons ts rest ih =>
    intro gs ge hle hchain
    rw [List.chain_cons] at hchain
    obtain ⟨hgt, hrest⟩ := hchain
    unfold buildGaps
    by_cases hts : ts - ge ≤ 1
    · rw [if_pos hts]
      have hts1 : ts = ge + 1 := by omega
      subst hts1
      rw [ih gs (ge + 1) (by omega) hrest, hourRange_snoc (by omega)]
      simp
    · rw [if_neg hts]
      have h2 : ge + 2 ≤ ts := by omega
      simp only [List.map_cons, List.flatten_cons]
      rw [ih ts ts le_rfl hrest]
      show gapHours (mkGap gs ge) ++ (hourRange ts ts ++ rest) = _
      rw [hourRange_self]
      simp [gapHours, mkGap]

theorem buildGaps_struct : ∀ (l : List Nat) (gs ge : Nat), gs ≤ ge →
    List.Chain (· < ·) ge l →
    (∃ g tl, buildGaps l gs ge = g :: tl ∧ g.start = gs)
    ∧ (∀ g ∈ buildGaps l gs ge,
        g.start ≤ g.stop ∧ g.duration_h = g.stop - g.start + 1
        ∧ g.is_dst = decide (Monat g.start = 3 ∧ Stunde g.start = 2 ∧ g.duration_h ≤ 1))
    ∧ List.Chain' (fun a b => a.stop + 2 ≤ b.start) (buildGaps l gs ge) := by
  intro l
  induction l with
  | nil =>
    intro gs ge hle _
    refine ⟨⟨mkGap gs ge, [], rfl, rfl⟩, ?_, ?_⟩
    · intro g hg
      simp only [buildGaps, List.mem_singleton] at hg
      subst hg
      exact ⟨hle, rfl, rfl⟩
    · exact List.chain'_singleton _
  | cons ts rest ih =>
    intro gs ge hle hchain
    rw [List.chain_cons] at hchain
    obtain ⟨hgt, hrest⟩ := hchain
    unfold buildGaps
    by_cases hts : ts - ge ≤ 1
    · rw [if_pos hts]
      exact ih gs ts (by omega) hrest
    · rw [if_neg hts]
      have h2 : ge + 2 ≤ ts := by omega
      obtain ⟨⟨g', tl', heq, hstart⟩, hwf, hch⟩ := ih ts ts le_rfl hrest
      refine ⟨⟨mkGap gs ge, buildGaps rest ts ts, rfl, rfl⟩, ?_, ?_⟩
      · intro g hg
        rcases List.mem_cons.mp hg with rfl | hg
        · exact ⟨hle, rfl, rfl⟩
        · exact hwf g hg
      · rw [heq, List.chain'_cons]
        refine ⟨?_, heq ▸ hch⟩
        show ge + 2 ≤ g'.start
        omega

theorem gaps_flatten (l : List Nat) :
    ((gaps l).map gapHours).flatten = fehlend l := by
  unfold gaps
  cases h : fehlend l with
  | nil => simp
  | cons f fs =>
    have hp : List.Pairwise (· < ·) (f :: fs) := h ▸ fehlend_pairwise l
    have hc : List.Chain (· < ·) f fs := List.chain_iff_pairwise.mpr hp
    rw [buildGaps_flatten fs f f le_rfl hc, hourRange_self]
    rfl

theorem gaps_struct (l : List Nat) :
    (∀ g ∈ gaps l,
        g.start ≤ g.stop ∧ g.duration_h = g.stop - g.start + 1
        ∧ g.is_dst = decide (Monat g.start = 3 ∧ Stunde g.start = 2 ∧ g.duration_h ≤ 1))
    ∧ List.Chain' (fun a b => a.stop + 2 ≤ b.start) (gaps l) := by
  unfold gaps
  cases h : fehlend l with
  | nil => exact ⟨fun g hg => absurd hg (List.not_mem_nil g), List.chain'_nil⟩
  | cons f fs =>
    have hp : List.Pairwise (· < ·) (f :: fs) := h ▸ fehlend_pairwise l
    have hc : List.Chain (· < ·) f fs := List.chain_iff_pairwise.mpr hp
    obtain ⟨_, hwf, hch⟩ := buildGaps_struct fs f f le_rfl hc
    exact ⟨hwf, hch⟩

/-! ## Claim theorems -/

/-- **C1** (Gap coverage): for a non-empty hour-aligned dataset, the
concatenation of the gaps' hourly timestamps is exactly the sorted missing
list `fehlend` (the expected hourly sequence from min to max minus the
observed set) — so every missing timestamp is covered exactly once, as
`fehlend` has no duplicates; the set of hours lying in some gap is exactly
the expected-minus-observed set; each gap is a well-formed interval;
consecutive gaps are strictly ascending, non-overlapping and non-adjacent
(next gap starts more than one hour after the previous one ends); and a
dataset with nothing missing yields no gaps. -/
theorem gap_coverage_exact (l : List Nat) (hl : l ≠ []) :
    ((gaps l).map gapHours).flatten = fehlend l
    ∧ (fehlend l).Nodup
    ∧ (∀ t : Nat, (∃ g ∈ gaps l, g.start ≤ t ∧ t ≤ g.stop)
        ↔ (t ∈ hourRange (listMin l) (listMax l) ∧ t ∉ l))
    ∧ (∀ g ∈ gaps l, g.start ≤ g.stop)
    ∧ List.Chain' (fun a b => a.stop + 2 ≤ b.start) (gaps l)
    ∧ (fehlend l = [] → gaps l = []) := by
  obtain ⟨hwf, hch⟩ := gaps_struct l
  refine ⟨gaps_flatten l, fehlend_nodup l, ?_, fun g hg => (hwf g hg).1, hch, ?_⟩
  · intro t
    have h1 : t ∈ ((gaps l).map gapHours).flatten
        ↔ ∃ g ∈ gaps l, g.start ≤ t ∧ t ≤ g.stop := by
      rw [List.mem_flatten]
      constructor
      · rintro ⟨lst, hlst, ht⟩
        obtain ⟨g, hg, rfl⟩ := List.mem_map.mp hlst
        exact ⟨g, hg, mem_hourRange.mp ht⟩
      · rintro ⟨g, hg, h⟩
        exact ⟨gapHours g, List.mem_map_of_mem _ hg, mem_hourRange.mpr h⟩
    rw [← h1, gaps_flatten l, mem_fehlend]
  · intro h
    unfold gaps
    rw [h]

theorem gap_coverage_exact_witness :
    (([0, 2, 5] : List Nat) ≠ [])
    ∧ (((gaps [0, 2, 5]).map gapHours).flatten = fehlend [0, 2, 5]
    ∧ (fehlend [0, 2, 5]).Nodup
    ∧ (∀ t : Nat, (∃ g ∈ gaps [0, 2, 5], g.start ≤ t ∧ t ≤ g.stop)
        ↔ (t ∈ hourRange (listMin [0, 2, 5]) (listMax [0, 2, 5]) ∧ t ∉ [0, 2, 5]))
    ∧ (∀ g ∈ gaps [0, 2, 5], g.start ≤ g.stop)
    ∧ List.Chain' (fun a b => a.stop + 2 ≤ b.start) (gaps [0, 2, 5])
    ∧ (fehlend [0, 2, 5] = [] → gaps [0, 2, 5] = [])) :=
  ⟨by decide, gap_coverage_exact [0, 2, 5] (by decide)⟩

/-- **C2** (DST flag precision): a gap produced by the detector carries
`is_dst = true` iff its duration is at most one hour, its start month is
March and its start hour-of-day is 2. -/
theorem gap_dst_flag_iff (l : List Nat) (g : Gap) (hg : g ∈ gaps l) :
    g.is_dst = true ↔ (g.duration_h ≤ 1 ∧ Monat g.start = 3 ∧ Stunde g.start = 2) := by
  obtain ⟨hwf, _⟩ := gaps_struct l
  rw [(hwf g hg).2.2, decide_eq_true_eq]
  tauto

theorem gap_dst_flag_iff_witness :
    (mkGap 1 1 ∈ gaps [0, 2])
    ∧ ((mkGap 1 1).is_dst = true ↔ ((mkGap 1 1).duration_h ≤ 1
        ∧ Monat (mkGap 1 1).start = 3 ∧ Stunde (mkGap 1 1).start = 2)) :=
  ⟨by decide, gap_dst_flag_iff [0, 2] (mkGap 1 1) (by decide)⟩

/-- **C7** (duration formula): every gap's duration equals
(end − start in hours) + 1, and a gap with start = end (a single isolated
missing timestamp) has duration exactly 1 hour. -/
theorem gap_duration_formula (l : List Nat) (g : Gap) (hg : g ∈ gaps l) :
    g.duration_h = g.stop - g.start + 1
    ∧ (g.start = g.stop → g.duration_h = 1) := by
  obtain ⟨hwf, _⟩ := gaps_struct l
  have h := (hwf g hg).2.1
  exact ⟨h, fun he => by omega⟩

theorem gap_duration_formula_witness :
    (mkGap 3 3 ∈ gaps [2, 4])
    ∧ ((mkGap 3 3).duration_h = (mkGap 3 3).stop - (mkGap 3 3).start + 1
        ∧ ((mkGap 3 3).start = (mkGap 3 3).stop → (mkGap 3 3).duration_h = 1)) :=
  ⟨by decide, gap_duration_formula [2, 4] (mkGap 3 3) (by decide)⟩

/-- **C3** (yearly gap-hours filter): a year's `gap_hours` sums the durations
of exactly the gaps that start in that year, last strictly more than one hour
and are not DST-flagged (single-hour non-DST gaps are thereby excluded,
though they still count into `missing`), and `gap_days` is `gap_hours / 24`. -/
theorem yearly_gap_hours_filter (l : List Nat) (s : YearStat)
    (hs : s ∈ (analyze_data_gaps l).yearly_stats) :
    s.gap_hours = (((analyze_data_gaps l).gaps.filter (fun g =>
        decide (Jahr g.start = s.jahr ∧ 1 < g.duration_h ∧ g.is_dst = false))).map
        (fun g => g.duration_h)).sum
    ∧ s.gap_days = (s.gap_hours : ℚ) / 24 := by
  obtain ⟨j, hj, rfl⟩ := List.mem_map.mp hs
  exact ⟨rfl, rfl⟩

theorem yearly_gap_hours_filter_witness :
    (yearStat [0, 5] (gaps [0, 5]) 1970 ∈ (analyze_data_gaps [0, 5]).yearly_stats)
    ∧ ((yearStat [0, 5] (gaps [0, 5]) 1970).gap_hours
        = (((analyze_data_gaps [0, 5]).gaps.filter (fun g =>
            decide (Jahr g.start = (yearStat [0, 5] (gaps [0, 5]) 1970).jahr
              ∧ 1 < g.duration_h ∧ g.is_dst = false))).map
            (fun g => g.duration_h)).sum
    ∧ (yearStat [0, 5] (gaps [0, 5]) 1970).gap_days
        = ((yearStat [0, 5] (gaps [0, 5]) 1970).gap_hours : ℚ) / 24) :=
  ⟨List.mem_map_of_mem _ (by decide), yearly_gap_hours_filter [0, 5] _
    (List.mem_map_of_mem _ (by decide))⟩

/-- **C6** (division guard): a year's completeness percentage is
`100 × actual / expected` whenever the expected slot count is positive and
`0` when it is zero; the computation is total, never a division fault. -/
theorem completeness_division_guard (l : List Nat) (s : YearStat)
    (hs : s ∈ (analyze_data_gaps l).yearly_stats) :
    (0 < s.expected → s.completeness = 100 * (s.actual : ℚ) / (s.expected : ℚ))
    ∧ (s.expected = 0 → s.completeness = 0) := by
  obtain ⟨j, hj, rfl⟩ := List.mem_map.mp hs
  constructor
  · intro h
    simp only [yearStat] at h ⊢
    rw [if_pos h]
  · intro h
    simp only [yearStat] at h ⊢
    rw [if_neg (by omega)]

theorem completeness_division_guard_witness :
    (yearStat [7] (gaps [7]) 1970 ∈ (analyze_data_gaps [7]).yearly_stats)
    ∧ ((0 < (yearStat [7] (gaps [7]) 1970).expected →
        (yearStat [7] (gaps [7]) 1970).completeness
          = 100 * ((yearStat [7] (gaps [7]) 1970).actual : ℚ)
              / ((yearStat [7] (gaps [7]) 1970).expected : ℚ))
    ∧ ((yearStat [7] (gaps [7]) 1970).expected = 0 →
        (yearStat [7] (gaps [7]) 1970).completeness = 0)) :=
  ⟨List.mem_map_of_mem _ (by decide), completeness_division_guard [7] _
    (List.mem_map_of_mem _ (by decide))⟩

/-- **C5** (completeness bound): every yearly record of a non-empty
hour-aligned dataset has a completeness percentage between 0 and 100;
the distinct observed timestamps of a year never outnumber the hourly
slots between that year's first and last observation. -/
theorem completeness_percent_bounds (l : List Nat) (hl : l ≠ []) :
    ∀ s ∈ (analyze_data_gaps l).yearly_stats,
      0 ≤ s.completeness ∧ s.completeness ≤ 100 := by
  intro s hs
  obtain ⟨j, hj, rfl⟩ := List.mem_map.mp hs
  rw [mem_years] at hj
  obtain ⟨t, htl, htj⟩ := hj
  have htjd : t ∈ l.filter (fun t => decide (Jahr t = j)) := by
    rw [List.mem_filter]
    exact ⟨htl, by simp [htj]⟩
  have hsub : (l.filter (fun t => decide (Jahr t = j))).dedup.toFinset
      ⊆ Finset.Icc (listMin (l.filter (fun t => decide (Jahr t = j))))
          (listMax (l.filter (fun t => decide (Jahr t = j)))) := by
    intro x hx
    rw [List.mem_toFinset, List.mem_dedup] at hx
    rw [Finset.mem_Icc]
    exact ⟨listMin_le hx, le_listMax hx⟩
  have hcard : (l.filter (fun t => decide (Jahr t = j))).dedup.length
      ≤ listMax (l.filter (fun t => decide (Jahr t = j))) + 1
        - listMin (l.filter (fun t => decide (Jahr t = j))) := by
    have h1 := Finset.card_le_card hsub
    rw [List.toFinset_card_of_nodup (List.nodup_dedup _), Nat.card_Icc] at h1
    exact h1
  constructor
  · simp only [yearStat]
    split
    · positivity
    · exact le_refl 0
  · simp only [yearStat]
    split
    · rename_i hpos
      rw [div_le_iff (by exact_mod_cast hpos)]
      have hc : ((l.filter (fun t => decide (Jahr t = j))).dedup.length : ℚ)
          ≤ ((listMax (l.filter (fun t => decide (Jahr t = j))) + 1
            - listMin (l.filter (fun t => decide (Jahr t = j))) : ℕ) : ℚ) :=
        Nat.cast_le.mpr hcard
      linarith
    · norm_num

theorem completeness_percent_bounds_witness :
    (([4, 6] : List Nat) ≠ [])
    ∧ ∀ s ∈ (analyze_data_gaps [4, 6]).yearly_stats,
        0 ≤ s.completeness ∧ s.completeness ≤ 100 :=
  ⟨by decide, completeness_percent_bounds [4, 6] (by decide)⟩

/-- **C9** (degenerate single-observation input): on a dataset with exactly
one observation the engine does not fail; it returns no gaps, zero total
missing hours, and a single yearly record with one expected and one actual
slot, zero missing, 100% completeness and zero gap hours/days. -/
theorem single_observation_defensive (t : Nat) :
    analyze_data_gaps [t] =
      { gaps := []
        yearly_stats := [{ jahr := Jahr t, start := t, stop := t, expected := 1,
                           actual := 1, missing := 0, completeness := 100,
                           gap_hours := 0, gap_days := 0 }]
        total_missing := 0 } := by
  have hf : fehlend [t] = [] := by
    unfold fehlend
    have h1 : listMin [t] = t := rfl
    have h2 : listMax [t] = t := rfl
    rw [h1, h2, hourRange_self]
    simp
  have hg : gaps [t] = [] := by
    unfold gaps
    rw [hf]
  have hy : years [t] = [Jahr t] := by
    simp [years, sortNat, insertSorted]
  unfold analyze_data_gaps
  rw [hf, hg, hy]
  simp only [List.map_cons, List.map_nil, List.length_nil, GapAnalysis.mk.injEq,
    List.cons.injEq, and_true, true_and]
  simp only [yearStat, List.filter_nil, List.map_nil, List.sum_nil]
  have hjd : [t].filter (fun x => decide (Jahr x = Jahr t)) = [t] := by simp
  rw [hjd]
  have h1 : listMin [t] = t := rfl
  have h2 : listMax [t] = t := rfl
  rw [h1, h2]
  have hd : [t].dedup = [t] := by
    rw [List.dedup_cons_of_not_mem (by simp), List.dedup_nil]
  rw [hd]
  simp only [YearStat.mk.injEq, List.length_cons, List.length_nil,
    Nat.add_sub_cancel_left]
  norm_num

theorem foldKW53_group (rows : List DayRec) (j : Int) (w : Nat) (hw : w ≤ 52) :
    kwGroup (foldKW53 rows) j w
      = kwGroup rows j w
        ++ (if w = 1 then (kwGroup rows (j - 1) 53).map foldRow else []) := by
  unfold kwGroup foldKW53
  rw [List.filter_filter, List.filter_append]
  congr 1
  · apply List.filter_congr
    intro r _
    rcases Decidable.em (r.jahr = j ∧ r.kw = w) with hp | hp
    · simp [hp.1, hp.2, hw]
    · simp [hp]
  · rw [List.filter_map, List.filter_filter]
    by_cases hw1 : w = 1
    · subst hw1
      rw [if_pos rfl]
      congr 1
      apply List.filter_congr
      intro r _
      rcases Decidable.em (r.kw = 53) with h53 | h53
      · rcases Decidable.em (r.jahr + 1 = j) with hj | hj
        · have hj' : r.jahr = j - 1 := by omega
          simp [Function.comp_apply, foldRow, hj, h53, hj']
        · have hj' : ¬ (r.jahr = j - 1) := by omega
          simp [Function.comp_apply, foldRow, hj, h53, hj']
      · simp [Function.comp_apply, foldRow, h53]
    · rw [if_neg hw1]
      have hnil : rows.filter (fun r =>
          ((fun r => decide (r.jahr = j ∧ r.kw = w) && decide (r.kw ≤ 52)) ∘ foldRow) r
            && decide (r.kw = 53)) = [] := by
        apply List.filter_eq_nil_iff.mpr
        intro r _
        simp only [Function.comp_apply, foldRow, ← Bool.decide_and, decide_eq_true_eq]
        intro hcon
        exact hw1 hcon.1.1.2.symm
      rw [hnil, List.map_nil]

/-- **C4** (week-53 fold): after the Calendar-Week Folder runs, no record has
week number 53 or greater; the (Y+1, week 1) group consists of the original
(Y+1, week 1) rows together with the reassigned (Y, week 53) rows (so both
day counts and sums merge), every (year, week) group with another week number
≤ 52 is unchanged, and the same holds for the summed totals. -/
theorem foldKW53_spec (rows : List DayRec) :
    (∀ r ∈ foldKW53 rows, r.kw < 53)
    ∧ (∀ (j : Int) (w : Nat), w ≤ 52 → w ≠ 1 →
        kwGroup (foldKW53 rows) j w = kwGroup rows j w)
    ∧ (∀ j : Int, kwGroup (foldKW53 rows) j 1
        = kwGroup rows j 1 ++ (kwGroup rows (j - 1) 53).map foldRow)
    ∧ (∀ (j : Int) (w : Nat), w ≤ 52 → w ≠ 1 →
        kwGroupSum (foldKW53 rows) j w = kwGroupSum rows j w)
    ∧ (∀ j : Int, kwGroupSum (foldKW53 rows) j 1
        = kwGroupSum rows j 1 + kwGroupSum rows (j - 1) 53) := by
  have h2 : ∀ (j : Int) (w : Nat), w ≤ 52 → w ≠ 1 →
      kwGroup (foldKW53 rows) j w = kwGroup rows j w := by
    intro j w hw hw1
    rw [foldKW53_group rows j w hw, if_neg hw1, List.append_nil]
  have h3 : ∀ j : Int, kwGroup (foldKW53 rows) j 1
      = kwGroup rows j 1 ++ (kwGroup rows (j - 1) 53).map foldRow := by
    intro j
    rw [foldKW53_group rows j 1 (by omega), if_pos rfl]
  refine ⟨?_, h2, h3, ?_, ?_⟩
  · intro r hr
    unfold foldKW53 at hr
    rw [List.mem_filter] at hr
    have := of_decide_eq_true hr.2
    omega
  · intro j w hw hw1
    unfold kwGroupSum
    rw [h2 j w hw hw1]
  · intro j
    unfold kwGroupSum
    rw [h3 j, List.map_append, List.sum_append, List.map_map]
    rfl

theorem foldKW53_spec_witness :
    ((5 : Nat) ≤ 52 ∧ (5 : Nat) ≠ 1)
    ∧ kwGroup (foldKW53 [⟨2020, 53, 0, 7⟩, ⟨2021, 5, 1, 3⟩]) 2021 5
        = kwGroup [⟨2020, 53, 0, 7⟩, ⟨2021, 5, 1, 3⟩] 2021 5 :=
  ⟨⟨by decide, by decide⟩,
    (foldKW53_spec [⟨2020, 53, 0, 7⟩, ⟨2021, 5, 1, 3⟩]).2.1 2021 5
      (by decide) (by decide)⟩

/-- **C8** (weekly mean suppression): a folded weekly aggregate's mean is the
no-data sentinel (`none`, never zero) exactly when fewer than 5 distinct days
contributed to the week, or the year is 2020 (the pandemic-lockdown year) and
the week number is below 4. -/
theorem weekly_mean_suppression (rows : List DayRec) (s : WeekStat)
    (hs : s ∈ weekly_stats_kw rows) :
    s.anzahl = none ↔ (s.tage < 5 ∨ (s.jahr = 2020 ∧ s.kw < 4)) := by
  obtain ⟨k, hk, rfl⟩ := List.mem_map.mp hs
  by_cases h1 : (wkStat rows k).tage < 5
  · by_cases h2 : (wkStat rows k).jahr = 2020 ∧ (wkStat rows k).kw < 4 <;>
      simp [suppressTage, suppressLockdown, h1, h2]
  · by_cases h2 : (wkStat rows k).jahr = 2020 ∧ (wkStat rows k).kw < 4
    · simp [suppressTage, suppressLockdown, h1, h2]
    · simp only [suppressTage, if_neg h1, suppressLockdown, if_neg h2]
      constructor
      · intro hnone
        exact absurd hnone (by simp [wkStat])
      · intro hR
        rcases hR with h | h
        · exact absurd h h1
        · exact absurd h h2

theorem weekly_mean_suppression_witness :
    (suppressLockdown (suppressTage (wkStat [⟨2021, 7, 0, 10⟩] (2021, 7)))
        ∈ weekly_stats_kw [⟨2021, 7, 0, 10⟩])
    ∧ ((suppressLockdown (suppressTage (wkStat [⟨2021, 7, 0, 10⟩] (2021, 7)))).anzahl
          = none
        ↔ ((suppressLockdown (suppressTage (wkStat [⟨2021, 7, 0, 10⟩] (2021, 7)))).tage < 5
          ∨ ((suppressLockdown (suppressTage (wkStat [⟨2021, 7, 0, 10⟩] (2021, 7)))).jahr
              = 2020
            ∧ (suppressLockdown (suppressTage (wkStat [⟨2021, 7, 0, 10⟩] (2021, 7)))).kw
              < 4))) :=
  ⟨List.mem_map_of_mem _ (by decide), weekly_mean_suppression [⟨2021, 7, 0, 10⟩] _
    (List.mem_map_of_mem _ (by decide))⟩

/-- **C10** (calendar-year keying of the fold): the Calendar-Week Folder keys
rows by calendar year, not ISO week-year.  Hour 499656 since the epoch is
2027-01-01 00:00, which lies in ISO week 53 of ISO year 2026 but in calendar
year 2027; its daily record therefore carries keys (2027, 53) and the fold
reassigns it to (2028, week 1) — not to (2027, week 1). -/
theorem kw53_fold_uses_calendar_year :
    Jahr 499656 = 2027 ∧ Kalenderwoche 499656 = 53
    ∧ ∀ (tag : Nat) (anz : Int),
        foldKW53 [{ jahr := (Jahr 499656 : Int), kw := Kalenderwoche 499656,
                    tag := tag, anzahl := anz }]
          = [{ jahr := 2028, kw := 1, tag := tag, anzahl := anz }] := by
  refine ⟨by decide, by decide, ?_⟩
  intro tag anz
  have h1 : ((Jahr 499656 : Nat) : Int) = 2027 := by decide
  have h2 : Kalenderwoche 499656 = 53 := by decide
  rw [h1, h2]
  simp [foldKW53, foldRow]
